import Mathlib

/-!
Verification of the interview-console's client-side reconciliation logic:
the guide-text classifier, the prompt/question partitioner, the answer
aligner, the version resolver, the transcript polling loop, the HTTP
client layer's degenerate-response handling and the interviews store.

Each definition is a shallow embedding of the corresponding TypeScript
function.  JavaScript strings are modelled by Lean `String`
(`List Char` underneath); `undefined`/absent fields by `Option`;
JavaScript truthiness of an optional string by "present and non-empty";
thrown exceptions by `Except`.  Case folding is modelled by
`Char.toLower`, which agrees with `String.prototype.toLowerCase` on the
ASCII texts these heuristics target.
-/

/-- The whitespace code points recognised by JavaScript's `\s`, `trim`. -/
def isJsSpace (c : Char) : Bool :=
  c == ' ' || c == '\x09' || c == '\x0a' || c == '\x0b' || c == '\x0c' ||
  c == '\x0d' || c == '\u00A0' || c == '\u1680' ||
  c == '\u2000' || c == '\u2001' || c == '\u2002' || c == '\u2003' ||
  c == '\u2004' || c == '\u2005' || c == '\u2006' || c == '\u2007' ||
  c == '\u2008' || c == '\u2009' || c == '\u200A' || c == '\u2028' ||
  c == '\u2029' || c == '\u202F' || c == '\u205F' || c == '\u3000' ||
  c == '\uFEFF'

/-- JavaScript `String.prototype.trim` on a character list. -/
def jsTrimL (l : List Char) : List Char :=
  ((l.dropWhile isJsSpace).reverse.dropWhile isJsSpace).reverse

/-- JavaScript `String.prototype.trim`. -/
def jsTrim (s : String) : String :=
  String.mk (jsTrimL s.data)

/-- JavaScript `String.prototype.toLowerCase` (ASCII case folding). -/
def jsToLower (s : String) : String :=
  String.mk (s.data.map Char.toLower)

/-- The normalisation `text.trim().toLowerCase()` used throughout the
partitioner. -/
def jsNormalize (s : String) : String :=
  jsToLower (jsTrim s)

/-- Helper for `strIncludes`: scan the haystack left to right. -/
def strIncludesAux (needle : List Char) : List Char → Bool
  | [] => needle.isPrefixOf []
  | c :: t => needle.isPrefixOf (c :: t) || strIncludesAux needle t

/-- JavaScript `String.prototype.includes`. -/
def strIncludes (hay needle : String) : Bool :=
  strIncludesAux needle.data hay.data

/-- A JSON bracket character, the character class of the classifier's
regular expressions. -/
def isBracketChar (c : Char) : Bool :=
  c == '[' || c == ']' || c == '\x7b' || c == '\x7d'

/-- After the bracket of `^\s*[\[\]{}]\s*,?\s*$`: optional whitespace, an
optional comma, optional whitespace, end of input. -/
def bracketCommaTail (l : List Char) : Bool :=
  match l.dropWhile isJsSpace with
  | [] => true
  | c :: rest => c == ',' && (rest.dropWhile isJsSpace).isEmpty

/-- Matcher for the regular expression `^\s*[\[\]{}]\s*,?\s*$`. -/
def regexBracketOptComma (l : List Char) : Bool :=
  match l.dropWhile isJsSpace with
  | [] => false
  | c :: rest => isBracketChar c && bracketCommaTail rest

/-- Matcher for the regular expression `^\s*[\[\]{}]\s*$`. -/
def regexBracketOnly (l : List Char) : Bool :=
  match l.dropWhile isJsSpace with
  | [] => false
  | c :: rest => isBracketChar c && (rest.dropWhile isJsSpace).isEmpty

/-- The Text Classifier `isValidQuestionText` of
`src/components/InterviewModal.tsx` (the copy in `src/lib/download.ts` is
identical): an empty string is rejected, and otherwise the trimmed text is
rejected exactly when it hits one of the structural-noise disjuncts. -/
def isValidQuestionText (text : String) : Bool :=
  if text.data.isEmpty then false
  else
    let trimmed := jsTrim text
    !( trimmed == "\x7b" || trimmed == "\x7d" ||
       trimmed == "[" || trimmed == "]" ||
       trimmed == "]," || trimmed == "\x7d," ||
       trimmed == "\"questions\": [" || trimmed == "\"prompts\": [" ||
       List.isPrefixOf "\"questions\":".data trimmed.data ||
       List.isPrefixOf "\"prompts\":".data trimmed.data ||
       regexBracketOptComma trimmed.data ||
       regexBracketOnly trimmed.data )

/-- The "structural token" predicate as the specification words it: one of
the six literal tokens, or a match of `^\s*[\[\]{}]\s*,?\s*$`, or a text
beginning with `"questions":` or `"prompts":`. -/
def structuralTokenB (trimmed : String) : Bool :=
  trimmed == "\x7b" || trimmed == "\x7d" ||
  trimmed == "[" || trimmed == "]" ||
  trimmed == "]," || trimmed == "\x7d," ||
  regexBracketOptComma trimmed.data ||
  List.isPrefixOf "\"questions\":".data trimmed.data ||
  List.isPrefixOf "\"prompts\":".data trimmed.data

/-- JavaScript truthiness of an optional string field: present and
non-empty. -/
def strTruthy : Option String → Bool
  | none => false
  | some s => !s.data.isEmpty

/-- The pattern `x || ""` on an optional string field. -/
def strOrEmpty : Option String → String
  | none => ""
  | some s => s

/-- The pattern `x || undefined` on an optional string field. -/
def truthyOrNone (o : Option String) : Option String :=
  if strTruthy o then o else none

/-- A raw verbatim-quote entry of an analysis payload (`quote`/`note` may be
absent). -/
structure VerbatimQuoteRaw where
  quote : Option String
  note : Option String
deriving DecidableEq

/-- A rendered verbatim quote of an `AnswerBlock`. -/
structure VerbatimQuote where
  quote : String
  note : Option String
deriving DecidableEq

/-- The `AnswerBlock` record of `src/unnamed/part_000`-style `lib/types`. -/
structure AnswerBlock where
  question : String
  answer : String
  quotes : Option (List VerbatimQuote)
  reasoning : Option String
deriving DecidableEq

/-- An object entry of an analysis result's `questions` array; every field
may be absent. -/
structure ResultQ where
  index : Option Int
  questionText : Option String
  answerSummary : Option String
  response : Option String
  promptText : Option String
  verbatimQuotes : Option (List VerbatimQuoteRaw)
  reasoning : Option String
deriving DecidableEq

/-- A `ResultQ` with every field absent: the `found = {}` fallback object. -/
def emptyResultQ : ResultQ :=
  { index := none, questionText := none, answerSummary := none,
    response := none, promptText := none, verbatimQuotes := none,
    reasoning := none }

/-- An element of the raw `resultQs` array: a proper object, or a
non-object entry (string, `null`, array) that the validity filters drop. -/
inductive RQItem where
  | bad : RQItem
  | good : ResultQ → RQItem
deriving DecidableEq

/-- An object entry of an analysis result's `prompts` array. -/
structure PromptRaw where
  index : Option Int
  promptText : Option String
  response : Option String
deriving DecidableEq

/-- `promptTexts` of InterviewModal: the normalised texts of the analysis
result's prompts that have a truthy `promptText`. -/
def promptTextsOf (resultPrompts : List PromptRaw) : List String :=
  resultPrompts.filterMap fun p =>
    match p.promptText with
    | some t => if t.data.isEmpty then none else some (jsNormalize t)
    | none => none

/-- `promptIndices` of InterviewModal: the defined `index` fields of the
analysis result's prompts. -/
def promptIndicesOf (resultPrompts : List PromptRaw) : List Int :=
  resultPrompts.filterMap PromptRaw.index

/-- `guidePromptTexts` of InterviewModal: the guide's own prompt lines,
normalised (truthy strings only). -/
def guidePromptTextsOf (guidePrompts : List String) : List String :=
  guidePrompts.filterMap fun p =>
    if p.data.isEmpty then none else some (jsNormalize p)

/-- A result entry that "looks like a prompt": has a truthy `response` but
neither `answerSummary` nor `questionText`. -/
def promptLikeB (q : ResultQ) : Bool :=
  strTruthy q.response && !strTruthy q.answerSummary && !strTruthy q.questionText

/-- `validQuestions` of InterviewModal: drops non-object entries and
entries recognised as prompts, keeps entries with an `answerSummary` or an
`index` plus truthy `questionText`. -/
def validQuestionsIM (promptTexts : List String) (promptIndices : List Int)
    (resultQs : List RQItem) : List ResultQ :=
  resultQs.filterMap fun item =>
    match item with
    | .bad => none
    | .good q =>
      if strTruthy q.promptText then none
      else if (match q.questionText with
               | some t => !t.data.isEmpty && promptTexts.contains (jsNormalize t)
               | none => false) then none
      else if promptLikeB q then none
      else if (match q.index with
               | some i => promptIndices.contains i
                   && strTruthy q.response && !strTruthy q.answerSummary
               | none => false) then none
      else if q.answerSummary.isSome || (q.index.isSome && strTruthy q.questionText) then
        some q
      else none

/-- The JavaScript comparison `shorter.length / longer.length >= 0.8`, in
exact rational form (`longer.length = 0` gives `NaN >= 0.8`, false). -/
def ratioGE08 (shorterLen longerLen : Nat) : Bool :=
  longerLen != 0 && 5 * shorterLen ≥ 4 * longerLen

/-- The near-duplicate test of the partitioner: the shorter of the two
normalised strings is at least 0.8 of the longer and is contained in it. -/
def nearDupB (nq promptText : String) : Bool :=
  let longer := if nq.data.length > promptText.data.length then nq else promptText
  let shorter := if nq.data.length > promptText.data.length then promptText else nq
  ratioGE08 shorter.data.length longer.data.length && strIncludes longer shorter

/-- The exclusion test a guide line runs against every known prompt text:
exact normalised match or near-duplicate. -/
def promptClashB (nq promptText : String) : Bool :=
  nq == promptText || nearDupB nq promptText

/-- `validGuideQuestions` of InterviewModal: guide lines that pass the Text
Classifier, are not a known prompt text, and do not clash with any known
prompt text. -/
def validGuideQuestions (allPromptTexts : List String) (questions : List String) :
    List String :=
  questions.filter fun qText =>
    if !isValidQuestionText qText then false
    else
      let nq := jsNormalize qText
      if allPromptTexts.contains nq then false
      else allPromptTexts.all fun promptText => !promptClashB nq promptText

/-- `filteredQuestionsWithIndices` of InterviewModal: pair each question of
`questionsToUse` with its position there, then drop pairs whose text still
clashes with a prompt. -/
def filteredQuestionsWithIndices (allPromptTexts : List String)
    (questionsToUse : List String) : List (Nat × String) :=
  questionsToUse.enum.filter fun p =>
    let nq := jsNormalize p.2
    if allPromptTexts.contains nq then false
    else allPromptTexts.all fun promptText => !promptClashB nq promptText

/-- Quote extraction of the aligner: `verbatimQuotes` mapped to rendered
quotes when it is an array, and kept only when non-empty. -/
def mkQuotes (q : ResultQ) : Option (List VerbatimQuote) :=
  match q.verbatimQuotes with
  | none => none
  | some vqs =>
    let all := vqs.map fun vq =>
      { quote := strOrEmpty vq.quote, note := truthyOrNone vq.note : VerbatimQuote }
    if all.length > 0 then some all else none

/-- The `AnswerBlock` built from a filtered question and the entry the
lookup settled on (`none` models the `found = {}` fallback). -/
def blockOf (qText : String) (found : Option ResultQ) : AnswerBlock :=
  { question := qText,
    answer := match found with
      | some q => strOrEmpty q.answerSummary
      | none => "",
    quotes := match found with
      | some q => mkQuotes q
      | none => none,
    reasoning := none }

/-- The `mapped` aligner of InterviewModal: for the filtered question at
display index `i` carrying original index `originalIndex`, find an entry by
`index === originalIndex`; otherwise fall back to `validQuestions[i]` if it
is not prompt-like; a final safety check discards a prompt-like result. -/
def mapped (validQuestions : List ResultQ) (fqwi : List (Nat × String)) :
    List AnswerBlock :=
  fqwi.enum.map fun p =>
    let i := p.1
    let originalIndex : Nat := p.2.1
    let qText := p.2.2
    let found0 := validQuestions.find? fun q => q.index == some (originalIndex : Int)
    let found1 :=
      match found0 with
      | some q => some q
      | none =>
        match validQuestions.get? i with
        | some candidate =>
          if !strTruthy candidate.promptText && !promptLikeB candidate then
            some candidate
          else none
        | none => none
    let found2 :=
      match found1 with
      | some q =>
        if strTruthy q.promptText || promptLikeB q then none else some q
      | none => none
    blockOf qText found2

/-- The full answer pipeline of InterviewModal for a loaded analysis (the
path that does not re-fetch the questionnaire): build the prompt sets,
filter the result entries and the guide questions, then align. -/
def interviewModalMapped (guideQuestions guidePrompts : List String)
    (resultQs : List RQItem) (resultPrompts : List PromptRaw) : List AnswerBlock :=
  let promptTexts := promptTextsOf resultPrompts
  let promptIndices := promptIndicesOf resultPrompts
  let validQs := validQuestionsIM promptTexts promptIndices resultQs
  let allPrompts := promptTexts ++ guidePromptTextsOf guidePrompts
  let vgq := validGuideQuestions allPrompts guideQuestions
  let fqwi := filteredQuestionsWithIndices allPrompts vgq
  mapped validQs fqwi

/-- `validQuestions` of `ensureInterviewAnswers` in `src/lib/download.ts`:
object entries with an `answerSummary` or an `index`. -/
def validQuestionsDL (resultQs : List RQItem) : List ResultQ :=
  resultQs.filterMap fun item =>
    match item with
    | .bad => none
    | .good q =>
      if q.answerSummary.isSome || q.index.isSome then some q else none

/-- The `mapped` aligner of `ensureInterviewAnswers` in
`src/lib/download.ts`: find by `index === i`, else take
`validQuestions[i]`, else an empty block. -/
def mappedDL (validQuestions : List ResultQ) (validGuideQs : List String) :
    List AnswerBlock :=
  validGuideQs.enum.map fun p =>
    let i : Nat := p.1
    let qText := p.2
    let found0 := validQuestions.find? fun q => q.index == some (i : Int)
    let found1 :=
      match found0 with
      | some q => some q
      | none => validQuestions.get? i
    { question := qText,
      answer := match found1 with
        | some q => strOrEmpty q.answerSummary
        | none => "",
      quotes := match found1 with
        | some q => mkQuotes q
        | none => none,
      reasoning := match found1 with
        | some q => truthyOrNone q.reasoning
        | none => none }

/-- The answer pipeline of `ensureInterviewAnswers` in
`src/lib/download.ts`: classifier-filter the guide questions, validity-filter
the result entries, then align. -/
def ensureInterviewAnswersMapped (guideQuestions : List String)
    (resultQs : List RQItem) : List AnswerBlock :=
  mappedDL (validQuestionsDL resultQs) (guideQuestions.filter isValidQuestionText)

/-- The Answer Aligner exactly as claim C2 words it, for comparison with
the code: partition the raw guide list once (classifier plus prompt
clash), keep each kept question's position in the *unfiltered* guide list,
match result entries by that position, and fall back to the positional
entry only when it does not look like a prompt. -/
def alignByUnfilteredIndex (allPromptTexts : List String)
    (guideQuestions : List String) (resultQuestions : List ResultQ) :
    List AnswerBlock :=
  let keptWithUnfilteredIndices := guideQuestions.enum.filter fun p =>
    if !isValidQuestionText p.2 then false
    else
      let nq := jsNormalize p.2
      if allPromptTexts.contains nq then false
      else allPromptTexts.all fun promptText => !promptClashB nq promptText
  keptWithUnfilteredIndices.enum.map fun p =>
    let i := p.1
    let originalIndex : Nat := p.2.1
    let qText := p.2.2
    let found0 := resultQuestions.find? fun q => q.index == some (originalIndex : Int)
    let found1 :=
      match found0 with
      | some q => some q
      | none =>
        match resultQuestions.get? i with
        | some candidate => if !promptLikeB candidate then some candidate else none
        | none => none
    blockOf qText found1

/-- The aligner as the amended claim C2 describes it: for the kept
question at display index `i` carrying original index `originalIndex`
(its position in `questionsToUse`, the once-filtered guide list), first
the entry of `validQuestions` whose `index` equals `originalIndex`, else
the positional candidate `validQuestions[i]` provided it does not look
like a prompt, else nothing. -/
def alignDescribed (validQuestions : List ResultQ) (fqwi : List (Nat × String)) :
    List AnswerBlock :=
  fqwi.enum.map fun p =>
    let i := p.1
    let originalIndex : Nat := p.2.1
    let qText := p.2.2
    let found :=
      match validQuestions.find? fun q => q.index == some (originalIndex : Int) with
      | some q => some q
      | none =>
        match validQuestions.get? i with
        | some candidate => if !promptLikeB candidate then some candidate else none
        | none => none
    blockOf qText found

/-- A stored analysis version as InterviewModal's `loadVersions` builds it. -/
structure VersionEntry where
  version : Int
  model : String
  lastModified : String
deriving DecidableEq

/-- The descending client-side sort
`versionsWithModel.sort((a, b) => b.version - a.version)` of
`loadVersions` (stable, ordered by version number descending). -/
def loadVersionsSorted (l : List VersionEntry) : List VersionEntry :=
  l.mergeSort fun a b => decide (b.version ≤ a.version)

/-- The default version selection of `loadVersions`: the head of the
descending-sorted list (`sorted[0].version`), the version the "latest"
resolution uses. -/
def selectedLatestVersion (l : List VersionEntry) : Option Int :=
  (loadVersionsSorted l).head?.map VersionEntry.version

/-- The readiness status of a transcript/translation response. -/
inductive TStatus where
  | pending : TStatus
  | ready : TStatus
deriving DecidableEq

/-- The `TranscriptResponse` of the client: a status and optional text. -/
structure TranscriptResponse where
  status : TStatus
  data : Option String
deriving DecidableEq

/-- The guard `resp.status === "ready" && resp.data` of the polling loop:
the text when the response is ready with truthy data. -/
def readyData (r : TranscriptResponse) : Option String :=
  match r.status, r.data with
  | .ready, some d => if d.data.isEmpty then none else some d
  | _, _ => none

/-- One guarded fetch of the polling loop: keep an already-obtained text,
swallow a thrown fetch (`Except.error`), take ready data. -/
def pollStep (o : Nat → Except Unit TranscriptResponse) (attempt : Nat)
    (cur : Option String) : Option String :=
  match cur with
  | some d => some d
  | none =>
    match o attempt with
    | .error _ => none
    | .ok r => readyData r

/-- The body of `pollForTranscripts`: `attempts` attempts already made,
the first component of the result is the Hindi transcript, the second the
English translation, the third the number of attempts made on return. -/
def pollForTranscriptsAux (oT oTr : Nat → Except Unit TranscriptResponse) :
    Nat → Nat → Option String → Option String →
    Option String × Option String × Nat
  | attempts, 0, h, e => (h, e, attempts)
  | attempts, fuel + 1, h, e =>
    let attempt := attempts + 1
    let h2 := pollStep oT attempt h
    let e2 := pollStep oTr attempt e
    if h2.isSome && e2.isSome then (h2, e2, attempt)
    else pollForTranscriptsAux oT oTr attempt fuel h2 e2

/-- `pollForTranscripts` of `src/lib/azure.ts`: up to `maxAttempts`
attempts, each polling transcript then translation with errors swallowed,
returning early when both are obtained and returning the partial results
otherwise.  The oracles give each attempt's fetch outcome; the inter-poll
delay (`intervalMs`) does not affect the computed result. -/
def pollForTranscripts (oT oTr : Nat → Except Unit TranscriptResponse)
    (maxAttempts : Nat) : Option String × Option String × Nat :=
  pollForTranscriptsAux oT oTr 0 maxAttempts none none

/-- The declared default of `maxAttempts` in `pollForTranscripts`. -/
def pollDefaultMaxAttempts : Nat := 30

/-- The declared default of `intervalMs` in `pollForTranscripts`. -/
def pollDefaultIntervalMs : Nat := 2000

/-- Whether a fetch `Response` is `ok`: status in the 2xx range. -/
def respOk (status : Nat) : Bool :=
  200 ≤ status && status < 300

/-- The parsed JSON body of a deletion response, when the body parses as
an object: optional `deleted` and `missing` arrays. -/
structure DeleteBody where
  deleted : Option (List String)
  missing : Option (List String)
deriving DecidableEq

/-- A backend response to a deletion request: HTTP status and the body
(`none` when empty or not parseable as JSON). -/
structure DeleteResponse where
  status : Nat
  body : Option DeleteBody
deriving DecidableEq

/-- The result record `{ deleted, missing }` of a deletion call. -/
structure DeleteResult where
  deleted : List String
  missing : List String
deriving DecidableEq

/-- `deleteRecord` of `src/lib/azure.ts` applied to its response: 404 is
rewritten to the synthetic result `{ deleted: [], missing: [audioId] }`,
any other non-2xx throws, and a 2xx body tolerates missing or unparseable
JSON. -/
def deleteRecord (audioId : String) (resp : DeleteResponse) :
    Except String DeleteResult :=
  if resp.status == 404 then
    .ok { deleted := [], missing := [audioId] }
  else if !(respOk resp.status) then
    .error "Failed to delete record"
  else
    let result := resp.body.getD { deleted := none, missing := none }
    .ok { deleted := result.deleted.getD [], missing := result.missing.getD [] }

/-- `deleteQuestionnaire` of `src/lib/azure.ts` applied to its response:
every non-2xx status (404 included) throws, and a 2xx body must parse as
JSON (`response.json()` throws otherwise). -/
def deleteQuestionnaire (resp : DeleteResponse) :
    Except String DeleteResult :=
  if !(respOk resp.status) then
    .error "Failed to delete questionnaire"
  else
    match resp.body with
    | none => .error "invalid json"
    | some result =>
      .ok { deleted := result.deleted.getD [], missing := result.missing.getD [] }

/-- `deleteAnalysis` of `src/lib/azure.ts` applied to its response: every
non-2xx status (404 included) throws, and a 2xx body is returned as parsed
JSON (`response.json()` throws otherwise). -/
def deleteAnalysis (resp : DeleteResponse) : Except String DeleteBody :=
  if !(respOk resp.status) then
    .error "Failed to delete analysis"
  else
    match resp.body with
    | none => .error "invalid json"
    | some j => .ok j

/-- A parsed JSON value, as `response.json()` yields it. -/
inductive Jsonv where
  | null : Jsonv
  | bool : Bool → Jsonv
  | num : Int → Jsonv
  | str : String → Jsonv
  | arr : List Jsonv → Jsonv
  | obj : List (String × Jsonv) → Jsonv

/-- JavaScript truthiness of a JSON value. -/
def Jsonv.truthy : Jsonv → Bool
  | .null => false
  | .bool b => b
  | .num n => n != 0
  | .str s => !s.data.isEmpty
  | .arr _ => true
  | .obj _ => true

/-- Property access `value.field` on a parsed JSON value: the last binding
of that key on an object (as `JSON.parse` keeps), `undefined` otherwise. -/
def Jsonv.getField (v : Jsonv) (name : String) : Option Jsonv :=
  match v with
  | .obj fields => (fields.filter fun p => p.1 == name).getLast?.map Prod.snd
  | _ => none

/-- Whether a JSON value is an array (`Array.isArray`). -/
def Jsonv.isArr : Jsonv → Bool
  | .arr _ => true
  | _ => false

/-- Whether a JSON value passes `raw && typeof raw === "object"` without
being an array: a (truthy) non-array object. -/
def Jsonv.isPlainObj : Jsonv → Bool
  | .obj _ => true
  | _ => false

/-- A backend response to `GET /api/records`: HTTP status and the parsed
body (`none` when empty or not parseable as JSON). -/
structure RecordsResponse where
  status : Nat
  body : Option Jsonv

/-- `listRecords` of `src/lib/azure.ts` applied to its response: 204 gives
the empty list, other non-2xx throws, an unparseable body gives the empty
list, a bare array is returned as the records, an object with a truthy
`records` field yields that field, and any other shape gives the empty
list.  The returned JSON value is the array the client casts to
`AzureRecord[]`. -/
def listRecords (resp : RecordsResponse) : Except String Jsonv :=
  if resp.status == 204 then
    .ok (.arr [])
  else if !(respOk resp.status) then
    .error "Failed to list records"
  else
    match resp.body with
    | none => .ok (.arr [])
    | some raw =>
      if raw.isArr then .ok raw
      else if raw.truthy && raw.isPlainObj
          && (raw.getField "records").any Jsonv.truthy then
        .ok ((raw.getField "records").getD .null)
      else .ok (.arr [])

/-- The fields of an `Interview` other than its generated `id`
(`Omit<Interview, "id">`), reduced to the ones the store's key and
uniqueness logic read; `rest` carries every remaining field. -/
structure InterviewData where
  guideId : String
  audioId : Option String
  rest : String
deriving DecidableEq

/-- An `Interview` of the interviews store: a generated `id` plus the
data fields. -/
structure Interview where
  id : String
  data : InterviewData
deriving DecidableEq

/-- The `(audioId, guideId)` key `upsertByAudioAndGuide` matches on. -/
def interviewKey (d : InterviewData) : Option String × String :=
  (d.audioId, d.guideId)

/-- `upsertByAudioAndGuide` of the interviews store
(`src/unnamed/part_005`): update the first interview with the same
`audioId` and `guideId` in place keeping its `id`, or append a new
interview under the freshly generated `newId`.  Returns the upserted
interview and the new list. -/
def upsertByAudioAndGuide (interviews : List Interview) (d : InterviewData)
    (newId : String) : Interview × List Interview :=
  match interviews.find? fun i =>
      i.data.audioId == d.audioId && i.data.guideId == d.guideId with
  | some existing =>
    let updated : Interview := { id := existing.id, data := d }
    (updated, interviews.map fun i => if i.id == existing.id then updated else i)
  | none =>
    let created : Interview := { id := newId, data := d }
    (created, interviews ++ [created])

/-- The number of interviews of a list holding a given
`(audioId, guideId)` key. -/
def keyCount (interviews : List Interview) (k : Option String × String) : Nat :=
  (interviews.filter fun i => interviewKey i.data == k).length

/-- The single result entry of the C1 scenario: `{index: 1, answerSummary:
"A2"}`. -/
def entryA2 : ResultQ :=
  { index := some 1, questionText := none, answerSummary := some "A2",
    response := none, promptText := none, verbatimQuotes := none,
    reasoning := none }

/-- C1: the claim that `align(["Q1","Q2"], [{index:1, answerSummary:"A2"}])`
yields the answers `["", "A2"]` is false: both aligners give `"Q1"` the
answer `"A2"` through the positional fallback (the entry at array position
0 is not prompt-like, so it is used even though its `index` field is 1). -/
theorem aligner_q1_not_left_empty :
    (interviewModalMapped ["Q1", "Q2"] [] [RQItem.good entryA2] []).map
        AnswerBlock.answer = ["A2", "A2"]
    ∧ (ensureInterviewAnswersMapped ["Q1", "Q2"] [RQItem.good entryA2]).map
        AnswerBlock.answer = ["A2", "A2"]
    ∧ (["A2", "A2"] : List String) ≠ ["", "A2"] :=
  ⟨rfl, rfl, by decide⟩

/-- C1 (amended): on `filteredQuestions = ["Q1","Q2"]` and
`resultQuestions = [{index:1, answerSummary:"A2"}]` the alignment produces
the answers `["A2", "A2"]`: the entry is matched to `"Q2"` via its `index`
field 1, and `"Q1"` receives the same entry through the positional
fallback at array position 0, because the positional fallback applies
whenever the candidate exists and does not look like a prompt, regardless
of its `index` field. -/
theorem aligner_index_and_positional_fallback :
    (interviewModalMapped ["Q1", "Q2"] [] [RQItem.good entryA2] []).map
        AnswerBlock.answer = ["A2", "A2"]
    ∧ (ensureInterviewAnswersMapped ["Q1", "Q2"] [RQItem.good entryA2]).map
        AnswerBlock.answer = ["A2", "A2"] :=
  ⟨rfl, rfl⟩

/-- C8: the claim that every deletion endpoint treats HTTP 404 as a
non-error outcome is false: `deleteQuestionnaire` and `deleteAnalysis`
throw on a 404 response even when its body is well-formed JSON. -/
theorem delete_questionnaire_and_analysis_throw_on_404 :
    deleteQuestionnaire
        { status := 404,
          body := some { deleted := some [], missing := some ["q1"] } } =
      Except.error "Failed to delete questionnaire"
    ∧ deleteAnalysis
        { status := 404,
          body := some { deleted := some [], missing := some ["a1"] } } =
      Except.error "Failed to delete analysis" :=
  ⟨rfl, rfl⟩

/-- C8 (amended): of the three deletion functions only `deleteRecord`
treats a 404 response as "already absent", returning
`{deleted: [], missing: [audioId]}` whatever the body; `deleteQuestionnaire`
and `deleteAnalysis` throw on 404 like on any other non-2xx status. -/
theorem deletion_404_behaviour :
    (∀ (audioId : String) (body : Option DeleteBody),
      deleteRecord audioId { status := 404, body := body } =
        Except.ok { deleted := [], missing := [audioId] })
    ∧ (∀ body : Option DeleteBody,
        deleteQuestionnaire { status := 404, body := body } =
          Except.error "Failed to delete questionnaire")
    ∧ (∀ body : Option DeleteBody,
        deleteAnalysis { status := 404, body := body } =
          Except.error "Failed to delete analysis") :=
  ⟨fun _ _ => rfl, fun _ => rfl, fun _ => rfl⟩

/-- A match of the pure-bracket regular expression is in particular a
match of the bracket-with-optional-comma one (empty comma part). -/
theorem regexBracketOnly_subsumed (l : List Char)
    (h : regexBracketOnly l = true) : regexBracketOptComma l = true := by
  unfold regexBracketOnly at h
  unfold regexBracketOptComma
  cases hd : l.dropWhile isJsSpace with
  | nil => rw [hd] at h; simp at h
  | cons c rest =>
    rw [hd] at h
    simp only [Bool.and_eq_true] at h
    obtain ⟨h1, h2⟩ := h
    rw [List.isEmpty_iff] at h2
    simp only [Bool.and_eq_true]
    refine ⟨h1, ?_⟩
    unfold bracketCommaTail
    rw [h2]

/-- The literal `"questions": [` begins with `"questions":`. -/
theorem questions_literal_is_prefixed (t : String)
    (h : (t == "\"questions\": [") = true) :
    List.isPrefixOf "\"questions\":".data t.data = true := by
  rw [beq_iff_eq] at h
  subst h
  decide

/-- The literal `"prompts": [` begins with `"prompts":`. -/
theorem prompts_literal_is_prefixed (t : String)
    (h : (t == "\"prompts\": [") = true) :
    List.isPrefixOf "\"prompts\":".data t.data = true := by
  rw [beq_iff_eq] at h
  subst h
  decide

/-- The classifier's rejection disjunction coincides with the
specification's structural-token predicate: the two literal
`"questions": [` / `"prompts": [` disjuncts are subsumed by the
`startsWith` tests and the pure-bracket regex by the optional-comma one. -/
theorem reject_disjunction_eq_structuralTokenB (t : String) :
    ( t == "\x7b" || t == "\x7d" ||
      t == "[" || t == "]" ||
      t == "]," || t == "\x7d," ||
      t == "\"questions\": [" || t == "\"prompts\": [" ||
      List.isPrefixOf "\"questions\":".data t.data ||
      List.isPrefixOf "\"prompts\":".data t.data ||
      regexBracketOptComma t.data ||
      regexBracketOnly t.data ) = structuralTokenB t := by
  rw [Bool.eq_iff_iff]
  unfold structuralTokenB
  simp only [Bool.or_eq_true]
  have hq := questions_literal_is_prefixed t
  have hp := prompts_literal_is_prefixed t
  have hr := regexBracketOnly_subsumed t.data
  tauto

/-- C5: `isValidQuestionText` returns `false` exactly on the empty string
and on text whose trimmed form is a structural token: one of the six
bracket tokens, a match of `^\s*[\[\]{}]\s*,?\s*$`, or a line beginning
with `"questions":` or `"prompts":`; on every other text it returns
`true`. -/
theorem isValidQuestionText_false_iff (s : String) :
    isValidQuestionText s = false ↔
      s = "" ∨ structuralTokenB (jsTrim s) = true := by
  unfold isValidQuestionText
  cases s with
  | mk l =>
    cases l with
    | nil => simp
    | cons c t =>
      have hne : (String.mk (c :: t)).data.isEmpty = false := rfl
      rw [hne]
      simp only [Bool.false_eq_true, if_false]
      rw [reject_disjunction_eq_structuralTokenB (jsTrim (String.mk (c :: t)))]
      have hns : String.mk (c :: t) ≠ "" := by
        intro h
        have hdata : (String.mk (c :: t)).data = ("" : String).data :=
          congrArg String.data h
        simp at hdata
      cases hb : structuralTokenB (jsTrim (String.mk (c :: t))) with
      | true => simp
      | false =>
        simp only [Bool.not_false, Bool.or_eq_true]
        constructor
        · intro h; simp at h
        · rintro (h | h)
          · exact absurd h hns
          · simp at h

/-- `strIncludesAux` decides infix containment. -/
theorem strIncludesAux_decides_containment (needle hay : List Char) :
    strIncludesAux needle hay = true ↔ needle <:+: hay := by
  induction hay with
  | nil =>
    simp [strIncludesAux, List.isPrefixOf_iff_prefix, List.prefix_nil,
      List.infix_nil]
  | cons c t ih =>
    simp [strIncludesAux, List.isPrefixOf_iff_prefix, ih,
      List.infix_cons_iff]

/-- `strIncludes` decides infix containment on strings. -/
theorem strIncludes_decides_containment (hay needle : String) :
    strIncludes hay needle = true ↔ needle.data <:+: hay.data :=
  strIncludesAux_decides_containment needle.data hay.data

/-- The near-duplicate relation as claim C4 words it, on the two already
normalised strings: the shorter is at least 0.8 times the length of the
longer, and the longer contains the shorter as a substring (on a tie the
code takes the prompt text as the longer string, mirrored here). -/
def nearDuplicateSpec (nq promptText : String) : Prop :=
  if nq.data.length > promptText.data.length then
    5 * promptText.data.length ≥ 4 * nq.data.length
      ∧ promptText.data <:+: nq.data
  else
    5 * nq.data.length ≥ 4 * promptText.data.length
      ∧ nq.data <:+: promptText.data

/-- Two strings with equal character lists are equal. -/
theorem stringDataInj {a b : String} (h : a.data = b.data) : a = b := by
  cases a
  cases b
  exact congrArg String.mk h

/-- The clash the claim describes implies the boolean clash test of the
code: an exact normalised match hits the equality disjunct, and a
near-duplicate hits `nearDupB` — except in the corner where both strings
are empty (the JavaScript ratio test is `NaN >= 0.8`, false), where the
equality disjunct fires instead. -/
theorem promptClash_of_spec (nq p : String)
    (h : jsNormalize nq = p ∨ nearDuplicateSpec (jsNormalize nq) p) :
    promptClashB (jsNormalize nq) p = true := by
  unfold promptClashB
  rcases h with h | h
  · rw [Bool.or_eq_true, beq_iff_eq]
    exact Or.inl h
  · unfold nearDuplicateSpec at h
    rw [Bool.or_eq_true]
    by_cases hlen : (jsNormalize nq).data.length > p.data.length
    · rw [if_pos hlen] at h
      obtain ⟨hr, hincl⟩ := h
      right
      unfold nearDupB
      simp only [if_pos hlen, Bool.and_eq_true]
      constructor
      · unfold ratioGE08
        rw [Bool.and_eq_true]
        constructor
        · simp only [bne_iff_ne, ne_eq]
          omega
        · simpa using hr
      · rw [strIncludes_decides_containment]
        exact hincl
    · rw [if_neg hlen] at h
      obtain ⟨hr, hincl⟩ := h
      by_cases hp0 : p.data.length = 0
      · left
        rw [beq_iff_eq]
        have h1 : (jsNormalize nq).data.length = 0 := by omega
        have h2 : (jsNormalize nq).data = [] := List.length_eq_zero.mp h1
        have h3 : p.data = [] := List.length_eq_zero.mp hp0
        exact stringDataInj (h2.trans h3.symm)
      · right
        unfold nearDupB
        simp only [if_neg hlen, Bool.and_eq_true]
        constructor
        · unfold ratioGE08
          rw [Bool.and_eq_true]
          constructor
          · simp only [bne_iff_ne, ne_eq]
            omega
          · simpa using hr
        · rw [strIncludes_decides_containment]
          exact hincl

/-- C4: a guide line whose normalised form equals some known prompt text
exactly, or stands in the claimed near-duplicate relation (length ratio
at least 0.8 and substring containment) to some known prompt text, is
excluded from `validGuideQuestions`. -/
theorem validGuideQuestions_excludes_prompt_matches
    (allPromptTexts questions : List String) (qText p : String)
    (hp : p ∈ allPromptTexts)
    (hclash : jsNormalize qText = p ∨ nearDuplicateSpec (jsNormalize qText) p) :
    qText ∉ validGuideQuestions allPromptTexts questions := by
  intro hmem
  rw [validGuideQuestions, List.mem_filter] at hmem
  obtain ⟨-, hpred⟩ := hmem
  have hcl : promptClashB (jsNormalize qText) p = true :=
    promptClash_of_spec qText p hclash
  by_cases hv : isValidQuestionText qText = true
  · rw [hv] at hpred
    simp only [Bool.not_true, Bool.false_eq_true, if_false] at hpred
    by_cases hc : allPromptTexts.contains (jsNormalize qText) = true
    · rw [if_pos hc] at hpred
      exact absurd hpred (by simp)
    · rw [if_neg hc] at hpred
      rw [List.all_eq_true] at hpred
      have := hpred p hp
      rw [hcl] at this
      exact absurd this (by simp)
  · have hv0 : isValidQuestionText qText = false := by
      cases h0 : isValidQuestionText qText
      · rfl
      · exact absurd h0 hv
    rw [hv0] at hpred
    simp at hpred

/-- Witness for C4: the guide line `"Q2 "` normalises to the known prompt
text `"q2"` and is excluded. -/
theorem validGuideQuestions_excludes_prompt_matches_witness :
    "Q2 " ∉ validGuideQuestions ["q2"] ["Q2 ", "other question"] :=
  validGuideQuestions_excludes_prompt_matches ["q2"] ["Q2 ", "other question"]
    "Q2 " "q2" (by decide) (Or.inl (by decide))

/-- C3: the aligner is total and degrades gracefully: it produces exactly
one `AnswerBlock` per filtered guide question for every pair of input
lists (lengths may differ, indices may match nothing), and a filtered
question whose index matches no result entry and whose display position
is beyond the result list yields the empty answer with no quotes. -/
theorem mapped_total_and_empty_default
    (validQs : List ResultQ) (fqwi : List (Nat × String)) :
    (mapped validQs fqwi).length = fqwi.length
    ∧ ∀ i oi q, fqwi.get? i = some (oi, q) →
        validQs.find? (fun e => e.index == some (oi : Int)) = none →
        validQs.length ≤ i →
        (mapped validQs fqwi).get? i =
          some { question := q, answer := "", quotes := none, reasoning := none } := by
  constructor
  · rw [mapped, List.length_map, List.enum_length]
  · intro i oi q hget hfind hlen
    rw [mapped, List.get?_map, List.get?_enum, hget]
    have hnone : validQs.get? i = none := List.get?_eq_none.mpr hlen
    have hnone2 : validQs[i]? = none := by
      rw [← List.get?_eq_getElem?]
      exact hnone
    simp [hfind, hnone2, blockOf]

/-- Witness for C3: with no result entries, the single filtered question
gets an empty block, and exactly one block is produced. -/
theorem mapped_total_and_empty_default_witness :
    (mapped [] [(0, "Q1")]).length = 1
    ∧ (mapped [] [(0, "Q1")]).get? 0 =
        some { question := "Q1", answer := "", quotes := none, reasoning := none } := by
  obtain ⟨h1, h2⟩ := mapped_total_and_empty_default [] [(0, "Q1")]
  exact ⟨h1, h2 0 0 "Q1" rfl rfl (by decide)⟩

/-- Every entry surviving the `validQuestions` filter of InterviewModal
has no truthy `promptText` and is not prompt-like: the filter's second and
third guards removed those. -/
theorem validQuestionsIM_not_promptLike (pt : List String) (pi : List Int)
    (rqs : List RQItem) :
    ∀ q ∈ validQuestionsIM pt pi rqs,
      strTruthy q.promptText = false ∧ promptLikeB q = false := by
  intro q hq
  rw [validQuestionsIM, List.mem_filterMap] at hq
  obtain ⟨item, hmem, hf⟩ := hq
  cases item with
  | bad => simp at hf
  | good q0 =>
    simp only at hf
    split_ifs at hf with h1 h2 h3 h4 h5
    obtain rfl : q0 = q := Option.some.inj hf
    exact ⟨Bool.eq_false_iff.mpr h1, Bool.eq_false_iff.mpr h3⟩

/-- Wherever the entries of `validQuestions` are never prompt-like (as the
pipeline guarantees), the aligner's prompt guards are inert and `mapped`
coincides with the claim's index-first, guarded-positional-second
description. -/
theorem mapped_eq_alignDescribed (validQs : List ResultQ)
    (fqwi : List (Nat × String))
    (hinv : ∀ q ∈ validQs,
      strTruthy q.promptText = false ∧ promptLikeB q = false) :
    mapped validQs fqwi = alignDescribed validQs fqwi := by
  rw [mapped, alignDescribed]
  apply List.map_congr_left
  intro p hp
  simp only
  cases hf : validQs.find? fun e => e.index == some (p.2.1 : Int) with
  | some q =>
    have hq := hinv q (List.mem_of_find?_eq_some hf)
    simp only [hf, hq.1, hq.2, Bool.or_self, Bool.false_eq_true, if_false]
  | none =>
    cases hg : validQs.get? p.1 with
    | some c =>
      have hc := hinv c (List.get?_mem hg)
      simp only [hf, hg, hc.1, hc.2, Bool.not_false, Bool.and_self,
        if_true, Bool.or_self, Bool.false_eq_true, if_false]
    | none =>
      simp only [hf, hg]

/-- Each pair kept by `filteredQuestionsWithIndices` carries the position
of its text in `questionsToUse`. -/
theorem filteredQuestionsWithIndices_get (allP qs : List String) :
    ∀ p ∈ filteredQuestionsWithIndices allP qs, qs.get? p.1 = some p.2 := by
  intro p hp
  rw [filteredQuestionsWithIndices, List.mem_filter] at hp
  have h1 := hp.1
  cases p with
  | mk i a => exact List.mem_enum_iff_get?.mp h1

/-- C2 (amended): for every input, the pipeline's alignment follows the
index-first, guarded-positional-second description — but the `index`
search key of a filtered question is its position in `questionsToUse`,
the guide list *after* the classifier/prompt filtering (preserved through
the second filtering pass), not its position in the unfiltered guide
list. -/
theorem interviewModalMapped_described
    (guideQuestions guidePrompts : List String) (resultQs : List RQItem)
    (resultPrompts : List PromptRaw) :
    interviewModalMapped guideQuestions guidePrompts resultQs resultPrompts =
      alignDescribed
        (validQuestionsIM (promptTextsOf resultPrompts)
          (promptIndicesOf resultPrompts) resultQs)
        (filteredQuestionsWithIndices
          (promptTextsOf resultPrompts ++ guidePromptTextsOf guidePrompts)
          (validGuideQuestions
            (promptTextsOf resultPrompts ++ guidePromptTextsOf guidePrompts)
            guideQuestions))
    ∧ ∀ p ∈ filteredQuestionsWithIndices
          (promptTextsOf resultPrompts ++ guidePromptTextsOf guidePrompts)
          (validGuideQuestions
            (promptTextsOf resultPrompts ++ guidePromptTextsOf guidePrompts)
            guideQuestions),
        (validGuideQuestions
          (promptTextsOf resultPrompts ++ guidePromptTextsOf guidePrompts)
          guideQuestions).get? p.1 = some p.2 := by
  constructor
  · exact mapped_eq_alignDescribed _ _ (validQuestionsIM_not_promptLike _ _ _)
  · exact filteredQuestionsWithIndices_get _ _

/-- The first result entry of the C2 scenario: `{index: 1, answerSummary:
"A1"}`. -/
def entryIdx1A1 : ResultQ :=
  { index := some 1, questionText := none, answerSummary := some "A1",
    response := none, promptText := none, verbatimQuotes := none,
    reasoning := none }

/-- The second result entry of the C2 scenario: `{index: 2, answerSummary:
"A2"}`. -/
def entryIdx2A2 : ResultQ :=
  { index := some 2, questionText := none, answerSummary := some "A2",
    response := none, promptText := none, verbatimQuotes := none,
    reasoning := none }

/-- C2: the claim that the index search matches a question's original
position in the *unfiltered* guide list is false.  Guide `["{", "Q1",
"Q2"]` (the `"{"` line is dropped by the classifier) with entries indexed
by unfiltered positions 1 and 2 would then give `["A1", "A2"]`, but the
code searches by position in the filtered list (0 and 1), so `"Q1"` gets
`"A1"` positionally and `"Q2"` index-matches entry 1, yielding
`["A1", "A1"]`. -/
theorem aligner_uses_filtered_positions :
    (interviewModalMapped ["\x7b", "Q1", "Q2"] []
        [RQItem.good entryIdx1A1, RQItem.good entryIdx2A2] []).map
      AnswerBlock.answer = ["A1", "A1"]
    ∧ (alignByUnfilteredIndex [] ["\x7b", "Q1", "Q2"]
        [entryIdx1A1, entryIdx2A2]).map AnswerBlock.answer = ["A1", "A2"]
    ∧ (["A1", "A1"] : List String) ≠ ["A1", "A2"] :=
  ⟨rfl, rfl, by decide⟩

/-- C6: the client-side descending sort makes the default selection the
maximum version number: for every non-empty version list the selected
"latest" is an upper bound attained by some entry, the selection is
invariant under every permutation of the backend's list order, and on
versions 1, 2, 3 (in any order, here one of them) it is version 3. -/
theorem selectedLatestVersion_is_max :
    (∀ (l : List VersionEntry) (e : VersionEntry), e ∈ l →
      ∃ v, selectedLatestVersion l = some v
        ∧ (∀ e2 ∈ l, e2.version ≤ v)
        ∧ ∃ e3 ∈ l, e3.version = v)
    ∧ (∀ l1 l2 : List VersionEntry, l1.Perm l2 →
        selectedLatestVersion l1 = selectedLatestVersion l2)
    ∧ selectedLatestVersion
        [{ version := 1, model := "", lastModified := "" },
         { version := 3, model := "", lastModified := "" },
         { version := 2, model := "", lastModified := "" }] = some 3 := by
  have main : ∀ (l : List VersionEntry) (e : VersionEntry), e ∈ l →
      ∃ v, selectedLatestVersion l = some v
        ∧ (∀ e2 ∈ l, e2.version ≤ v)
        ∧ ∃ e3 ∈ l, e3.version = v := by
    intro l e he
    have hperm : (loadVersionsSorted l).Perm l :=
      List.mergeSort_perm l fun a b => decide (b.version ≤ a.version)
    have htrans : ∀ a b c : VersionEntry,
        decide (b.version ≤ a.version) = true →
        decide (c.version ≤ b.version) = true →
        decide (c.version ≤ a.version) = true := by
      intro a b c hab hbc
      simp only [decide_eq_true_eq] at hab hbc ⊢
      omega
    have htotal : ∀ a b : VersionEntry,
        (decide (b.version ≤ a.version) || decide (a.version ≤ b.version)) = true := by
      intro a b
      simp only [Bool.or_eq_true, decide_eq_true_eq]
      omega
    have hsorted : List.Pairwise
        (fun a b => decide (b.version ≤ a.version) = true)
        (loadVersionsSorted l) :=
      List.sorted_mergeSort htrans htotal l
    cases hs : loadVersionsSorted l with
    | nil =>
      exfalso
      have hmem : e ∈ loadVersionsSorted l := hperm.mem_iff.mpr he
      rw [hs] at hmem
      simp at hmem
    | cons hd tl =>
      refine ⟨hd.version, ?_, ?_, ?_⟩
      · rw [selectedLatestVersion, hs]
        rfl
      · intro e2 he2
        have he2s : e2 ∈ hd :: tl := by
          rw [← hs]
          exact hperm.mem_iff.mpr he2
        rw [hs] at hsorted
        rcases List.mem_cons.mp he2s with h | h
        · rw [h]
        · have := (List.pairwise_cons.mp hsorted).1 e2 h
          exact of_decide_eq_true this
      · refine ⟨hd, ?_, rfl⟩
        have : hd ∈ loadVersionsSorted l := by
          rw [hs]
          exact List.mem_cons_self hd tl
        exact hperm.mem_iff.mp this
  refine ⟨main, ?_, ?_⟩
  · intro l1 l2 hp
    cases l1 with
    | nil =>
      have h2 : l2 = [] := hp.symm.eq_nil
      rw [h2]
    | cons a t =>
      obtain ⟨v1, hv1, hmax1, e1, he1, hve1⟩ :=
        main (a :: t) a (List.mem_cons_self a t)
      obtain ⟨v2, hv2, hmax2, e2, he2, hve2⟩ :=
        main l2 a (hp.subset (List.mem_cons_self a t))
      have h12 : v1 ≤ v2 := by
        have := hmax2 e1 (hp.subset he1)
        omega
      have h21 : v2 ≤ v1 := by
        have := hmax1 e2 (hp.symm.subset he2)
        omega
      rw [hv1, hv2]
      have : v1 = v2 := le_antisymm h12 h21
      rw [this]
  · obtain ⟨v, hv, hmax, e3, he3, hve⟩ :=
      main [{ version := 1, model := "", lastModified := "" },
            { version := 3, model := "", lastModified := "" },
            { version := 2, model := "", lastModified := "" }]
        { version := 3, model := "", lastModified := "" } (by simp)
    have h3v : (3 : Int) ≤ v := by
      have := hmax { version := 3, model := "", lastModified := "" } (by simp)
      simpa using this
    have hv3 : v ≤ 3 := by
      simp only [List.mem_cons, List.not_mem_nil, or_false] at he3
      rcases he3 with h | h | h <;> rw [h] at hve <;> simp at hve <;> omega
    have : v = 3 := le_antisymm hv3 h3v
    rw [hv, this]

/-- The polling loop makes at most `fuel` further attempts. -/
theorem pollForTranscriptsAux_count_le
    (oT oTr : Nat → Except Unit TranscriptResponse) :
    ∀ (fuel attempts : Nat) (h e : Option String),
      (pollForTranscriptsAux oT oTr attempts fuel h e).2.2 ≤ attempts + fuel := by
  intro fuel
  induction fuel with
  | zero => intro attempts h e; simp [pollForTranscriptsAux]
  | succ n ih =>
    intro attempts h e
    rw [pollForTranscriptsAux]
    by_cases hc : ((pollStep oT (attempts + 1) h).isSome
        && (pollStep oTr (attempts + 1) e).isSome) = true
    · rw [if_pos hc]
      show attempts + 1 ≤ attempts + (n + 1)
      omega
    · rw [if_neg hc]
      have := ih (attempts + 1) (pollStep oT (attempts + 1) h)
        (pollStep oTr (attempts + 1) e)
      omega

/-- When the polling loop stops before exhausting its attempts, both
texts have been obtained. -/
theorem pollForTranscriptsAux_early_exit
    (oT oTr : Nat → Except Unit TranscriptResponse) :
    ∀ (fuel attempts : Nat) (h e : Option String),
      (pollForTranscriptsAux oT oTr attempts fuel h e).2.2 < attempts + fuel →
      (pollForTranscriptsAux oT oTr attempts fuel h e).1.isSome = true
        ∧ (pollForTranscriptsAux oT oTr attempts fuel h e).2.1.isSome = true := by
  intro fuel
  induction fuel with
  | zero => intro attempts h e hlt; simp [pollForTranscriptsAux] at hlt
  | succ n ih =>
    intro attempts h e hlt
    rw [pollForTranscriptsAux] at hlt ⊢
    by_cases hc : ((pollStep oT (attempts + 1) h).isSome
        && (pollStep oTr (attempts + 1) e).isSome) = true
    · rw [if_pos hc] at hlt ⊢
      exact ⟨(Bool.and_eq_true .. |>.mp hc).1, (Bool.and_eq_true .. |>.mp hc).2⟩
    · rw [if_neg hc] at hlt ⊢
      exact ih (attempts + 1) _ _ (by omega)

/-- When every fetch throws, the loop swallows every error, keeps
polling, exhausts all its attempts and returns no text at all — without
throwing. -/
theorem pollForTranscriptsAux_all_errors :
    ∀ (fuel attempts : Nat),
      pollForTranscriptsAux (fun _ => Except.error ()) (fun _ => Except.error ())
        attempts fuel none none = (none, none, attempts + fuel) := by
  intro fuel
  induction fuel with
  | zero => intro attempts; simp [pollForTranscriptsAux]
  | succ n ih =>
    intro attempts
    rw [pollForTranscriptsAux]
    have hstep : pollStep (fun _ => Except.error ()) (attempts + 1)
        (none : Option String) = none := rfl
    rw [hstep]
    simp only [Option.isSome_none, Bool.and_self, Bool.false_eq_true, if_false]
    rw [ih]
    have harith : attempts + 1 + n = attempts + (n + 1) := by omega
    rw [harith]

/-- Once the loop would return with both texts under some budget, any
larger budget returns the identical result: the loop returns as soon as
both are ready (the entry state must not already have both texts, as at
the loop's start). -/
theorem pollForTranscriptsAux_stable
    (oT oTr : Nat → Except Unit TranscriptResponse) :
    ∀ (f1 f2 attempts : Nat) (h e : Option String),
      ¬((h.isSome && e.isSome) = true) →
      f1 ≤ f2 →
      (pollForTranscriptsAux oT oTr attempts f1 h e).1.isSome = true →
      (pollForTranscriptsAux oT oTr attempts f1 h e).2.1.isSome = true →
      pollForTranscriptsAux oT oTr attempts f2 h e =
        pollForTranscriptsAux oT oTr attempts f1 h e := by
  intro f1
  induction f1 with
  | zero =>
    intro f2 attempts h e hne hle h1 h2
    exfalso
    apply hne
    simp only [pollForTranscriptsAux] at h1 h2
    rw [h1, h2]
    rfl
  | succ n ih =>
    intro f2 attempts h e hne hle h1 h2
    cases f2 with
    | zero => omega
    | succ m =>
      by_cases hc : ((pollStep oT (attempts + 1) h).isSome
          && (pollStep oTr (attempts + 1) e).isSome) = true
      · have hL : pollForTranscriptsAux oT oTr attempts (m + 1) h e =
            (pollStep oT (attempts + 1) h, pollStep oTr (attempts + 1) e,
              attempts + 1) := by
          rw [pollForTranscriptsAux, if_pos hc]
        have hR : pollForTranscriptsAux oT oTr attempts (n + 1) h e =
            (pollStep oT (attempts + 1) h, pollStep oTr (attempts + 1) e,
              attempts + 1) := by
          rw [pollForTranscriptsAux, if_pos hc]
        rw [hL, hR]
      · have hL : pollForTranscriptsAux oT oTr attempts (m + 1) h e =
            pollForTranscriptsAux oT oTr (attempts + 1) m
              (pollStep oT (attempts + 1) h) (pollStep oTr (attempts + 1) e) := by
          rw [pollForTranscriptsAux, if_neg hc]
        have hR : pollForTranscriptsAux oT oTr attempts (n + 1) h e =
            pollForTranscriptsAux oT oTr (attempts + 1) n
              (pollStep oT (attempts + 1) h) (pollStep oTr (attempts + 1) e) := by
          rw [pollForTranscriptsAux, if_neg hc]
        rw [hR] at h1 h2
        rw [hL, hR]
        exact ih m (attempts + 1) _ _ hc (by omega) h1 h2

/-- C7: `pollForTranscripts` is a bounded fixed-interval retry loop: it
makes at most `maxAttempts` attempts; when it stops early both the
transcript and the translation were obtained; when every fetch throws it
swallows each error, keeps polling, and after exhausting all attempts
returns no text without throwing; once a budget suffices to obtain both,
any larger budget returns the identical result (it returns as soon as
both are ready); and the declared defaults are 30 attempts and 2000 ms. -/
theorem pollForTranscripts_bounded_loop :
    (∀ (oT oTr : Nat → Except Unit TranscriptResponse) (maxAttempts : Nat),
      (pollForTranscripts oT oTr maxAttempts).2.2 ≤ maxAttempts)
    ∧ (∀ (oT oTr : Nat → Except Unit TranscriptResponse) (maxAttempts : Nat),
        (pollForTranscripts oT oTr maxAttempts).2.2 < maxAttempts →
        (pollForTranscripts oT oTr maxAttempts).1.isSome = true
          ∧ (pollForTranscripts oT oTr maxAttempts).2.1.isSome = true)
    ∧ (∀ maxAttempts : Nat,
        pollForTranscripts (fun _ => Except.error ()) (fun _ => Except.error ())
          maxAttempts = (none, none, maxAttempts))
    ∧ (∀ (oT oTr : Nat → Except Unit TranscriptResponse) (m1 m2 : Nat),
        m1 ≤ m2 →
        (pollForTranscripts oT oTr m1).1.isSome = true →
        (pollForTranscripts oT oTr m1).2.1.isSome = true →
        pollForTranscripts oT oTr m2 = pollForTranscripts oT oTr m1)
    ∧ pollDefaultMaxAttempts = 30 ∧ pollDefaultIntervalMs = 2000 := by
  refine ⟨?_, ?_, ?_, ?_, rfl, rfl⟩
  · intro oT oTr m
    have := pollForTranscriptsAux_count_le oT oTr m 0 none none
    simpa [pollForTranscripts] using this
  · intro oT oTr m hlt
    have := pollForTranscriptsAux_early_exit oT oTr m 0 none none
    exact this (by simpa [pollForTranscripts] using hlt)
  · intro m
    have := pollForTranscriptsAux_all_errors m 0
    simpa [pollForTranscripts] using this
  · intro oT oTr m1 m2 hle h1 h2
    exact pollForTranscriptsAux_stable oT oTr m1 m2 0 none none (by simp) hle h1 h2

/-- C9: `listRecords` never throws on a successful but degenerate
response: 204 gives the empty list whatever the body; a 2xx with an
empty/unparseable body gives the empty list; a parsed body that is
neither an array nor an object carrying a `records` field gives the
empty list; a bare array body and an object body of shape
`{records: [...]}` give the records; and every 2xx response yields a
normal result, never an error. -/
theorem listRecords_never_throws_on_success :
    (∀ body : Option Jsonv,
      listRecords { status := 204, body := body } = Except.ok (Jsonv.arr []))
    ∧ (∀ st : Nat, respOk st = true →
        listRecords { status := st, body := none } = Except.ok (Jsonv.arr []))
    ∧ (∀ (st : Nat) (raw : Jsonv), respOk st = true → st ≠ 204 →
        raw.isArr = false → raw.isPlainObj = false →
        listRecords { status := st, body := some raw } = Except.ok (Jsonv.arr []))
    ∧ (∀ (st : Nat) (raw : Jsonv), respOk st = true → st ≠ 204 →
        raw.isArr = false → raw.getField "records" = none →
        listRecords { status := st, body := some raw } = Except.ok (Jsonv.arr []))
    ∧ (∀ (st : Nat) (xs : List Jsonv), respOk st = true → st ≠ 204 →
        listRecords { status := st, body := some (.arr xs) } =
          Except.ok (Jsonv.arr xs))
    ∧ (∀ (st : Nat) (xs : List Jsonv), respOk st = true → st ≠ 204 →
        listRecords { status := st, body := some (.obj [("records", .arr xs)]) } =
          Except.ok (Jsonv.arr xs))
    ∧ (∀ (st : Nat) (body : Option Jsonv), respOk st = true →
        (listRecords { status := st, body := body }).isOk = true) := by
  have h204 : ∀ st : Nat, st = 204 → ∀ body : Option Jsonv,
      listRecords { status := st, body := body } = Except.ok (Jsonv.arr []) := by
    intro st hst body
    subst hst
    rw [listRecords]
    rfl
  refine ⟨h204 204 rfl, ?_, ?_, ?_, ?_, ?_, ?_⟩
  · intro st hok
    rw [listRecords]
    by_cases h4 : st = 204
    · rw [if_pos (by simp [h4])]
    · rw [if_neg (by simp [h4]), if_neg (by simp [hok])]
  · intro st raw hok h4 harr hobj
    rw [listRecords]
    rw [if_neg (by simp [h4]), if_neg (by simp [hok])]
    simp only [harr, Bool.false_eq_true, if_false]
    rw [if_neg (by simp [hobj])]
  · intro st raw hok h4 harr hrec
    rw [listRecords]
    rw [if_neg (by simp [h4]), if_neg (by simp [hok])]
    simp only [harr, Bool.false_eq_true, if_false]
    rw [if_neg (by simp [hrec])]
  · intro st xs hok h4
    rw [listRecords]
    rw [if_neg (by simp [h4]), if_neg (by simp [hok])]
    rfl
  · intro st xs hok h4
    rw [listRecords]
    rw [if_neg (by simp [h4]), if_neg (by simp [hok])]
    rfl
  · intro st body hok
    rw [listRecords]
    by_cases h4 : st = 204
    · rw [if_pos (by simp [h4])]
      rfl
    · rw [if_neg (by simp [h4]), if_neg (by simp [hok])]
      cases body with
      | none => rfl
      | some raw =>
        by_cases ha : raw.isArr = true
        · simp only [ha, if_true]
          rfl
        · simp only [ha, Bool.false_eq_true, if_false]
          by_cases hb : (raw.truthy && raw.isPlainObj
              && (raw.getField "records").any Jsonv.truthy) = true
          · rw [if_pos hb]
            rfl
          · rw [if_neg hb]
            rfl

/-- The key test of `keyCount` coincides with `upsertByAudioAndGuide`'s
find predicate. -/
theorem keyPred_eq (i : Interview) (d : InterviewData) :
    (interviewKey i.data == interviewKey d) =
      (i.data.audioId == d.audioId && i.data.guideId == d.guideId) := rfl

/-- C10: `upsertByAudioAndGuide` keeps the `(audioId, guideId)` key
unique: when an interview with the data's key exists, the first such is
replaced in place keeping its `id` and the length is unchanged; when none
exists, exactly the one new interview (under the generated id) is
appended; and a list with at most one interview per key keeps at most one
interview for the upserted key (given the store's ids are distinct). -/
theorem upsertByAudioAndGuide_key_unique
    (l : List Interview) (d : InterviewData) (newId : String) :
    (∀ ex, l.find? (fun i =>
        i.data.audioId == d.audioId && i.data.guideId == d.guideId) = some ex →
      (upsertByAudioAndGuide l d newId).2.length = l.length
      ∧ (upsertByAudioAndGuide l d newId).1 = { id := ex.id, data := d }
      ∧ (upsertByAudioAndGuide l d newId).2 =
          l.map fun i =>
            if i.id == ex.id then { id := ex.id, data := d } else i)
    ∧ (l.find? (fun i =>
        i.data.audioId == d.audioId && i.data.guideId == d.guideId) = none →
      (upsertByAudioAndGuide l d newId).2 = l ++ [{ id := newId, data := d }]
      ∧ (upsertByAudioAndGuide l d newId).2.length = l.length + 1)
    ∧ ((l.map Interview.id).Nodup →
        keyCount l (interviewKey d) ≤ 1 →
        keyCount (upsertByAudioAndGuide l d newId).2 (interviewKey d) ≤ 1) := by
  refine ⟨?_, ?_, ?_⟩
  · intro ex hfind
    rw [upsertByAudioAndGuide, hfind]
    exact ⟨by rw [List.length_map], rfl, rfl⟩
  · intro hfind
    rw [upsertByAudioAndGuide, hfind]
    exact ⟨rfl, by simp⟩
  · intro hnodup hcount
    cases hfind : l.find? (fun i =>
        i.data.audioId == d.audioId && i.data.guideId == d.guideId) with
    | none =>
      rw [upsertByAudioAndGuide, hfind]
      have hzero : keyCount l (interviewKey d) = 0 := by
        rw [keyCount, List.length_eq_zero, List.filter_eq_nil]
        intro i hi hkey
        apply List.find?_eq_none.mp hfind i hi
        rw [← keyPred_eq]
        exact hkey
      rw [keyCount, List.filter_append]
      have hl : List.filter (fun i => interviewKey i.data == interviewKey d) l = [] := by
        rw [← List.length_eq_zero, ← keyCount]
        exact hzero
      rw [hl]
      simp
    | some ex =>
      rw [upsertByAudioAndGuide, hfind]
      have hex_mem : ex ∈ l := List.mem_of_find?_eq_some hfind
      have hex_pred := List.find?_some hfind
      have hexkey : (interviewKey ex.data == interviewKey d) = true := by
        rw [keyPred_eq]
        exact hex_pred
      have hmapcount : keyCount
          (l.map fun i => if i.id == ex.id then { id := ex.id, data := d } else i)
          (interviewKey d) = keyCount l (interviewKey d) := by
        rw [keyCount, List.filter_map, List.length_map, keyCount]
        congr 1
        apply List.filter_congr
        intro i hi
        by_cases hid : (i.id == ex.id) = true
        · have hieq : i = ex :=
            List.inj_on_of_nodup_map hnodup hi hex_mem (beq_iff_eq.mp hid)
          simp only [Function.comp_apply, if_pos hid]
          rw [hieq, hexkey]
          exact beq_self_eq_true (interviewKey d)
        · simp only [Function.comp_apply, if_neg hid]
      rw [hmapcount]
      exact hcount
